import Mathlib

/-!
A shallow embedding of the jayce deployment orchestrator
(src/tasks/deploy_contracts.rs, src/bin/jayce.rs, src/deploy_config.rs,
src/utils.rs), together with theorems settling the specification claims.

External effects (the aptos CLI publish calls, the faucet, the interactive
prompts, the credential store and the report file) are resolved by an
explicit `World` of oracles consumed in program order; the orchestrator's
control flow, state and observable actions are translated directly from
the source.  On-chain addresses are modelled as naturals, transaction
summaries as opaque naturals, paths as strings.
-/

namespace Jayce

/-- On-chain account address (`AccountAddress`). -/
abbrev Addr := Nat

/-- Symbolic address name. -/
abbrev Name := String

/-- One `TransactionSummary`, abstracted to an opaque identifier. -/
abbrev TxSummary := Nat

/-- Model of `DeployModuleType` from src/deploy_config.rs. -/
inductive DeployModuleType
  | account
  | object
deriving DecidableEq, Repr

/-- Model of `AptosNetwork` from src/deploy_config.rs (`Local` is `localnet` here). -/
inductive AptosNetwork
  | mainnet
  | testnet
  | devnet
  | localnet
deriving DecidableEq, Repr

/-- Model of `AptosNetwork::rest_url` from src/deploy_config.rs. -/
def AptosNetwork.restUrl : AptosNetwork → Option String
  | .mainnet => some "https://api.mainnet.aptoslabs.com/v1"
  | .testnet => some "https://api.testnet.aptoslabs.com/v1"
  | .devnet => some "https://api.devnet.aptoslabs.com/v1"
  | .localnet => none

/-- Model of `AptosNetwork::faucet_url` from src/deploy_config.rs. -/
def AptosNetwork.faucetUrl : AptosNetwork → Option String
  | .mainnet => none
  | .testnet => some "https://faucet.testnet.aptoslabs.com"
  | .devnet => some "https://faucet.devnet.aptoslabs.com"
  | .localnet => none

/-- Model of `DeployConfig` from src/deploy_config.rs.  Field `deployed_addresses` is a
`BTreeMap<String, AccountAddress>`, modelled as an association list queried
with `List.lookup` (first binding wins, as coming from a map the keys are
unique). -/
structure DeployConfig where
  private_key : Option String
  module_type : DeployModuleType
  modules_path : List String
  addresses_name : List Name
  network : AptosNetwork
  yes : Bool
  output_json : String
  deployed_addresses : List (Name × Addr)
  rest_url : Option String
  faucet_url : Option String
  publish_code : Bool
deriving DecidableEq, Repr

/-- The `aptos` CLI errors distinguished by the orchestrator:
`CliError::PackageSizeExceeded(limit, actual)` versus everything else. -/
inductive CliErr
  | packageSizeExceeded (limit actual : Nat)
  | other (msg : String)
deriving DecidableEq, Repr

/-- The two `panic!`/`unwrap` sites inside `run_core`: the missing-dependency
panic in the named-address closure, and `deployed_at.unwrap()` when an
object-mode publish returned no object address.  Both unwind the spawned
task and surface to `deploy_contracts` as a `JoinError`. -/
inductive CrashKind
  | depMissing (missing selfName : Name)
  | objectUnwrap
deriving DecidableEq, Repr

/-- Errors `run_core` returns as `Err` values (not panics). -/
inductive RunError
  | manifestErr (msg : String)
  | cli (e : CliErr)
  | chunkUnsupported (n : AptosNetwork)
deriving DecidableEq, Repr

/-- How the spawned `run_core` task ended when it did not succeed:
a returned error, or a captured panic (`JoinError`). -/
inductive FailExit
  | err (e : RunError)
  | crashed (c : CrashKind)
deriving DecidableEq, Repr

/-- Errors surfaced by `deploy_contracts` itself. `urlMissing` stands for the
`.expect` aborts in `create_profile` when a network lacks a default URL and
no override is given; `reportWrite` for a failing `fs::write` of the report;
`profileRemoveFailed` for a failing `remove_profile()` (its config read,
directory removal or store rewrite erroring) — both of which propagate via
`?` before `match result` is reached. -/
inductive TopError
  | provisioning (msg : String)
  | urlMissing
  | profileInit (msg : String)
  | core (e : RunError)
  | taskFailed (c : CrashKind)
  | reportWrite
  | profileRemoveFailed
deriving DecidableEq, Repr

/-- Observable actions of a run, in program order.  A `publish` event is one
invocation of `run_deploy_command` for the given package with the resolved
`--named-addresses` substitution list; `chunked` marks the
`--chunked-publish` resubmission. -/
inductive Event
  | faucet
  | skip (dir : String) (name : Name)
  | manifestRead (dir : String)
  | publish (dir : String) (name : Name) (subs : List (Name × Addr)) (chunked : Bool)
  | reportWrite
  | profileRemove
deriving DecidableEq, Repr

/-- Model of `TxReport` from src/tasks/deploy_contracts.rs. -/
structure TxReport where
  module_path : String
  address_name : Name
  deployed_at : Addr
  tx_info : List TxSummary
deriving DecidableEq, Repr

/-- Model of `DeployReport` from src/tasks/deploy_contracts.rs. -/
structure DeployReport where
  account : Addr
  network : AptosNetwork
  info : List TxReport
deriving DecidableEq, Repr

/-- Outcome of one `run_deploy_command` invocation: transaction summaries and
the created object address (`None` in account mode), or a CLI error. -/
inductive PublishResult
  | ok (tx_info : List TxSummary) (object_addr : Option Addr)
  | err (e : CliErr)
deriving DecidableEq, Repr

/-- The run's environment: oracles for every external effect, consumed in
program order.  `keys` decodes a supplied private key to its address;
`faucet` is the outcome of `generate_account_and_faucet`; `manifests` maps a
package directory to the key set of its Move.toml `addresses` table (in the
iteration order the `HashMap` happens to produce); `pubs` are the successive
`run_deploy_command` outcomes; `answers` the successive chunked-publish
prompt replies; `writeOk` whether the report serialization-and-write step
succeeds; `removeOk` whether `remove_profile` succeeds (it is fallible in
the source: the config read, `remove_dir_all` and the store rewrite can
each error — failure is modelled at its first fallible operation, the
store read, which leaves the store untouched); `store0` the pre-existing
credential-store profiles. -/
structure World where
  keys : List (String × Addr)
  genAnswer : Bool
  faucet : Except String Addr
  manifests : List (String × List Name)
  pubs : List PublishResult
  answers : List Bool
  initResult : Except String Unit
  writeOk : Bool
  removeOk : Bool
  store0 : List (String × String)

/-- Mutable state threaded through the `run_core` package loop, plus the
remaining oracles and the trace of observable actions so far. -/
structure CoreSt where
  deployed : List (Name × Addr)
  records : List TxReport
  pubs : List PublishResult
  answers : List Bool
  trace : List Event
deriving Repr

/-- Result of processing one package: continue with an updated state, or
stop the whole run. -/
inductive StepRes
  | cont (st : CoreSt)
  | halt (e : FailExit) (st : CoreSt)
deriving Repr

/-- Constant `DEPLOYER_PROFILE` from src/tasks/deploy_contracts.rs. -/
def DEPLOYER_PROFILE : String := "jayce_deployer"

/-- Model of `get_named_addresses` from src/tasks/deploy_contracts.rs: load the
package's Move.toml `addresses` key set, require the package's own
`address_name` to be present, and in object mode remove the self entry. -/
def get_named_addresses (manifest : Option (List Name)) (address_name : Name)
    (module_type : DeployModuleType) : Except String (List Name) :=
  match manifest with
  | none => .error "failed to load Move.toml"
  | some keys =>
    if keys.contains address_name then
      match module_type with
      | .object => .ok (keys.filter fun k => k != address_name)
      | .account => .ok keys
    else .error ("Address name " ++ address_name ++ " not found in Move.toml")

/-- The `--named-addresses` substitution list built by the closure in
`run_core` (lines 125-146): each manifest name resolves to its address-book
entry, and an absent name — which, when the run has not panicked, can only
be the package's own `address_name` — resolves to the sender address. -/
def resolveSubs (keys : List Name) (book : List (Name × Addr)) (selfName : Name)
    (sender : Addr) : List (Name × Addr) :=
  let _ := selfName
  keys.map fun k => (k, match book.lookup k with | some a => a | none => sender)

/-- The tail of `run_core`'s success path per package (lines 213-223):
compute `deployed_at` (`sender` in account mode, the created object address
in object mode — `.unwrap()` panics if it is absent), extend the address
book, append a `TxReport`. -/
def finishPackage (cfg : DeployConfig) (sender : Addr) (dir : String) (name : Name)
    (tx : List TxSummary) (obj : Option Addr) (st : CoreSt) : StepRes :=
  match (match cfg.module_type with
         | .account => some sender
         | .object => obj) with
  | none => .halt (.crashed .objectUnwrap) st
  | some addr =>
    .cont { st with deployed := (name, addr) :: st.deployed,
                    records := st.records ++ [⟨dir, name, addr, tx⟩] }

/-- Continuation of the `CliError::PackageSizeExceeded` handler once the
confirmation answer is known: on confirmation resubmit the same operation
once with `--chunked-publish`; on decline return the original size
error. -/
def chunkRetryGo (cfg : DeployConfig) (sender : Addr) (dir : String) (name : Name)
    (subs : List (Name × Addr)) (limit actual : Nat) (ans : Bool)
    (st : CoreSt) : StepRes :=
  if ans then
    match st.pubs with
    | [] =>
      .halt (.err (.cli (.other "oracle exhausted")))
        { st with trace := st.trace ++ [.publish dir name subs true] }
    | r1 :: pubs2 =>
      match r1 with
      | .ok tx obj =>
        finishPackage cfg sender dir name tx obj
          { st with trace := st.trace ++ [.publish dir name subs true], pubs := pubs2 }
      | .err e =>
        .halt (.err (.cli e))
          { st with trace := st.trace ++ [.publish dir name subs true], pubs := pubs2 }
  else .halt (.err (.cli (.packageSizeExceeded limit actual))) st

/-- The `CliError::PackageSizeExceeded` handler of `run_core` (lines
179-204) once the network is Mainnet or Testnet: the answer is `true`
without prompting when `--yes` is set, otherwise it is the next prompt
reply. -/
def chunkRetry (cfg : DeployConfig) (sender : Addr) (dir : String) (name : Name)
    (subs : List (Name × Addr)) (limit actual : Nat) (st : CoreSt) : StepRes :=
  if cfg.yes then chunkRetryGo cfg sender dir name subs limit actual true st
  else
    match st.answers with
    | [] => chunkRetryGo cfg sender dir name subs limit actual false st
    | b :: bs =>
      chunkRetryGo cfg sender dir name subs limit actual b { st with answers := bs }

/-- One iteration of the `run_core` package loop (lines 110-224): skip if the
address name is already in the book; otherwise read the manifest, panic on a
missing dependency, publish, apply the size-exceeded retry policy, and
record the result. -/
def stepPackage (cfg : DeployConfig) (sender : Addr)
    (man : List (String × List Name)) (dir : String) (name : Name)
    (st : CoreSt) : StepRes :=
  if (st.deployed.lookup name).isSome then
    .cont { st with trace := st.trace ++ [.skip dir name] }
  else
    match get_named_addresses (man.lookup dir) name cfg.module_type with
    | .error e =>
      .halt (.err (.manifestErr e)) { st with trace := st.trace ++ [.manifestRead dir] }
    | .ok keys =>
      match keys.find? (fun k => !(st.deployed.lookup k).isSome && k != name) with
      | some missing =>
        .halt (.crashed (.depMissing missing name))
          { st with trace := st.trace ++ [.manifestRead dir] }
      | none =>
        let subs := resolveSubs keys st.deployed name sender
        match st.pubs with
        | [] =>
          .halt (.err (.cli (.other "oracle exhausted")))
            { st with trace := st.trace ++ [.manifestRead dir, .publish dir name subs false] }
        | r0 :: pubs1 =>
          let st1 : CoreSt :=
            { st with trace := st.trace ++ [.manifestRead dir, .publish dir name subs false],
                      pubs := pubs1 }
          match r0 with
          | .ok tx obj => finishPackage cfg sender dir name tx obj st1
          | .err (.packageSizeExceeded limit actual) =>
            match cfg.network with
            | .mainnet => chunkRetry cfg sender dir name subs limit actual st1
            | .testnet => chunkRetry cfg sender dir name subs limit actual st1
            | .devnet => .halt (.err (.chunkUnsupported .devnet)) st1
            | .localnet => .halt (.err (.chunkUnsupported .localnet)) st1
          | .err e => .halt (.err (.cli e)) st1

/-- The `run_core` loop over the zipped package list.  `none` in the first
component is the `Ok(())` exit; `some e` the first fatal error (returned or
panicked), with the state as it was at that moment. -/
def run_core_loop (cfg : DeployConfig) (sender : Addr)
    (man : List (String × List Name)) :
    List (String × Name) → CoreSt → Option FailExit × CoreSt
  | [], st => (none, st)
  | (dir, name) :: rest, st =>
    match stepPackage cfg sender man dir name st with
    | .cont st' => run_core_loop cfg sender man rest st'
    | .halt e st' => (some e, st')

/-- The zipped `(package_dir, address_name)` list iterated by `run_core`
(`config.modules_path.iter().zip(&config.addresses_name)`). -/
def pkgList (cfg : DeployConfig) : List (String × Name) :=
  cfg.modules_path.zip cfg.addresses_name

/-- The state `run_core` starts from: the configuration's pre-populated
`deployed_addresses` map, no records, the full oracles, an empty trace. -/
def initCoreSt (cfg : DeployConfig) (w : World) : CoreSt :=
  ⟨cfg.deployed_addresses, [], w.pubs, w.answers, []⟩

/-- Model of `run_core` from src/tasks/deploy_contracts.rs. -/
def run_core (cfg : DeployConfig) (w : World) (sender : Addr) :
    Option FailExit × CoreSt :=
  run_core_loop cfg sender w.manifests (pkgList cfg) (initCoreSt cfg w)

/-- Rest-URL resolution in `create_profile`: explicit override, else the
network default. -/
def resolvedRest (cfg : DeployConfig) : Option String :=
  match cfg.rest_url with
  | some u => some u
  | none => cfg.network.restUrl

/-- Faucet-URL resolution in `create_profile`: explicit override, else the
network default. -/
def resolvedFaucet (cfg : DeployConfig) : Option String :=
  match cfg.faucet_url with
  | some u => some u
  | none => cfg.network.faucetUrl

/-- The effect of `aptos init` on the credential store: (re)bind the named
profile, keeping the other entries. -/
def storeInsert (s : List (String × String)) (k v : String) :
    List (String × String) :=
  (s.filter fun p => p.1 != k) ++ [(k, v)]

/-- Model of `remove_profile` from src/tasks/deploy_contracts.rs: reopen the store;
if it holds exactly one profile and that profile is the deployer's, delete
the whole store (`none`); otherwise remove just the deployer entry (a
no-op when it is absent) and keep the rest. -/
def remove_profile (profiles : List (String × String)) :
    Option (List (String × String)) :=
  if profiles.length == 1 then
    if profiles.any (fun p => p.1 == DEPLOYER_PROFILE) then none else some profiles
  else some (profiles.filter fun p => p.1 != DEPLOYER_PROFILE)

/-- Everything `deploy_contracts` leaves behind: its return value, the
report file content if a report write succeeded, the credential store
(`none` = the whole store was deleted), and the event trace. -/
structure Outcome where
  result : Except TopError Unit
  written : Option DeployReport
  store : Option (List (String × String))
  trace : List Event
deriving Repr

/-- Mapping of the spawned task's exit to `deploy_contracts`' final
`match result`: a returned error passes through, a captured panic becomes
the `JoinError` conversion. -/
def topResult : Option FailExit → Except TopError Unit
  | none => .ok ()
  | some (.err e) => .error (.core e)
  | some (.crashed c) => .error (.taskFailed c)

/-- Lines 78-101 of src/tasks/deploy_contracts.rs, after the sender is
known: `create_profile` (panicking via `.expect` when a required URL has no
value, failing when `aptos init` fails), the supervised `run_core` task,
the report write — whose `?` returns the write error immediately, before
`remove_profile` and before the deployment result is consulted — then
`remove_profile()?` — whose own failure likewise returns before the
deployment result is consulted, leaving the store as it was (failure
modelled at the store read, its first fallible step) — and only then the
deployment result. -/
def finishRun (cfg : DeployConfig) (w : World) (sender : Addr)
    (tr0 : List Event) : Outcome :=
  match resolvedRest cfg, resolvedFaucet cfg with
  | some _, some _ =>
    match w.initResult with
    | .error m => ⟨.error (.profileInit m), none, some w.store0, tr0⟩
    | .ok _ =>
      let store1 := storeInsert w.store0 DEPLOYER_PROFILE "deployer-key"
      let out := run_core cfg w sender
      if w.writeOk then
        ⟨(if w.removeOk then topResult out.1 else .error .profileRemoveFailed),
         some ⟨sender, cfg.network, out.2.records⟩,
         (if w.removeOk then remove_profile store1 else some store1),
         tr0 ++ out.2.trace ++ [.reportWrite, .profileRemove]⟩
      else
        ⟨.error .reportWrite, none, some store1, tr0 ++ out.2.trace⟩
  | _, _ => ⟨.error .urlMissing, none, some w.store0, tr0⟩

/-- Model of `deploy_contracts` from src/tasks/deploy_contracts.rs.  With no private
key: unless `--yes`, ask for confirmation and on decline return `Ok(())`
immediately — before any faucet call, any profile, any report write.
Otherwise generate and fund an account.  With a key, decode it.  Then run
the rest of the function (`finishRun`). -/
def deploy_contracts (cfg : DeployConfig) (w : World) : Outcome :=
  match cfg.private_key with
  | none =>
    if !cfg.yes && !w.genAnswer then ⟨.ok (), none, some w.store0, []⟩
    else
      match w.faucet with
      | .error m => ⟨.error (.provisioning m), none, some w.store0, [.faucet]⟩
      | .ok sender => finishRun cfg w sender [.faucet]
  | some k =>
    match w.keys.lookup k with
    | none => ⟨.error (.provisioning "invalid private key"), none, some w.store0, []⟩
    | some sender => finishRun cfg w sender []

/-- Result of `main`'s Deploy arm in src/bin/jayce.rs: the `ensure!` length
check, then `deploy_contracts`. -/
inductive MainOut
  | configError (msg : String)
  | ran (o : Outcome)

/-- The Deploy arm of `main` in src/bin/jayce.rs (lines 160-166): reject
mismatched list lengths before calling `deploy_contracts`; nothing else
about the lists is validated. -/
def jayce_main (cfg : DeployConfig) (w : World) : MainOut :=
  if cfg.modules_path.length == cfg.addresses_name.length then
    .ran (deploy_contracts cfg w)
  else .configError "Modules path and addresses name must have the same length"

/-- Whether `jayce_main` rejected the configuration. -/
def MainOut.isConfigError : MainOut → Bool
  | .configError _ => true
  | .ran _ => false

/-- Key of a `TxReport` as the claims speak of it: which package the record
is for. -/
def recKey (r : TxReport) : String × Name := (r.module_path, r.address_name)

/-- The `info[*].address_name → deployed_at` map a consumer extracts from a
report to resume a deployment. -/
def reportMap (info : List TxReport) : List (Name × Addr) :=
  info.map fun r => (r.address_name, r.deployed_at)

/-- Number of publish invocations recorded in a trace. -/
def publishCount (tr : List Event) : Nat :=
  (tr.filter fun e => match e with | .publish _ _ _ _ => true | _ => false).length

/-- Number of chunked publish invocations recorded in a trace. -/
def chunkedCount (tr : List Event) : Nat :=
  (tr.filter fun e => match e with | .publish _ _ _ true => true | _ => false).length

/-- Whether the outcome's credential store still holds the deployer
profile. -/
def storeHasDeployer (o : Outcome) : Bool :=
  match o.store with
  | none => false
  | some s => s.any fun p => p.1 == DEPLOYER_PROFILE

/-- Follows the spec's words for claim C2: the packages of a list that are
not skipped, processing left to right, where a package is skipped exactly
when its address name is already bound, and each non-skipped package binds
its name.  `names` is the key set of the address book. -/
def nonSkipped (names : List Name) : List (String × Name) → List (String × Name)
  | [] => []
  | p :: rest =>
    if p.2 ∈ names then nonSkipped names rest
    else p :: nonSkipped (p.2 :: names) rest

/-! ### Helper lemmas -/

theorem lookup_isSome_iff_mem {α β : Type} [BEq α] [LawfulBEq α]
    (l : List (α × β)) (n : α) :
    (l.lookup n).isSome = true ↔ n ∈ l.map Prod.fst := by
  induction l with
  | nil => simp [List.lookup]
  | cons p rest ih =>
    obtain ⟨k, v⟩ := p
    by_cases h : n = k
    · subst h; simp [List.lookup]
    · have hbeq : (n == k) = false := by simpa using h
      simp [List.lookup, hbeq, h, ih]

/-- A package whose `address_name` is already in the address book is
skipped: only a skip message is printed; the book, the records and the
remaining oracles are untouched, no manifest is read, no publish happens. -/
theorem stepPackage_skip {cfg : DeployConfig} {sender : Addr}
    {man : List (String × List Name)} {dir : String} {name : Name} {st : CoreSt}
    (h : (st.deployed.lookup name).isSome = true) :
    stepPackage cfg sender man dir name st
      = .cont { st with trace := st.trace ++ [.skip dir name] } := by
  simp [stepPackage, h]

theorem finishPackage_halt_frame {cfg : DeployConfig} {sender : Addr}
    {dir : String} {name : Name} {tx : List TxSummary} {obj : Option Addr}
    {st : CoreSt} {e : FailExit} {st' : CoreSt}
    (h : finishPackage cfg sender dir name tx obj st = .halt e st') :
    st'.records = st.records ∧ st'.deployed = st.deployed := by
  unfold finishPackage at h
  split at h
  · simp only [StepRes.halt.injEq] at h
    obtain ⟨-, rfl⟩ := h
    exact ⟨rfl, rfl⟩
  · simp at h

theorem finishPackage_cont {cfg : DeployConfig} {sender : Addr}
    {dir : String} {name : Name} {tx : List TxSummary} {obj : Option Addr}
    {st : CoreSt} {st' : CoreSt}
    (h : finishPackage cfg sender dir name tx obj st = .cont st') :
    ∃ addr, st'.deployed = (name, addr) :: st.deployed ∧
      st'.records = st.records ++ [⟨dir, name, addr, tx⟩] := by
  unfold finishPackage at h
  split at h
  · simp at h
  · next addr _ =>
    simp only [StepRes.cont.injEq] at h
    subst h
    exact ⟨addr, rfl, rfl⟩

theorem chunkRetryGo_halt_frame {cfg : DeployConfig} {sender : Addr}
    {dir : String} {name : Name} {subs : List (Name × Addr)} {l a : Nat}
    {ans : Bool} {st : CoreSt} {e : FailExit} {st' : CoreSt}
    (h : chunkRetryGo cfg sender dir name subs l a ans st = .halt e st') :
    st'.records = st.records ∧ st'.deployed = st.deployed := by
  unfold chunkRetryGo at h
  split at h
  · split at h
    · simp only [StepRes.halt.injEq] at h
      obtain ⟨-, rfl⟩ := h
      exact ⟨rfl, rfl⟩
    · split at h
      · have hf := finishPackage_halt_frame h
        exact ⟨hf.1, hf.2⟩
      · simp only [StepRes.halt.injEq] at h
        obtain ⟨-, rfl⟩ := h
        exact ⟨rfl, rfl⟩
  · simp only [StepRes.halt.injEq] at h
    obtain ⟨-, rfl⟩ := h
    exact ⟨rfl, rfl⟩

theorem chunkRetryGo_cont {cfg : DeployConfig} {sender : Addr}
    {dir : String} {name : Name} {subs : List (Name × Addr)} {l a : Nat}
    {ans : Bool} {st : CoreSt} {st' : CoreSt}
    (h : chunkRetryGo cfg sender dir name subs l a ans st = .cont st') :
    ∃ addr tx, st'.deployed = (name, addr) :: st.deployed ∧
      st'.records = st.records ++ [⟨dir, name, addr, tx⟩] := by
  unfold chunkRetryGo at h
  split at h
  · split at h
    · simp at h
    · split at h
      · obtain ⟨addr, h1, h2⟩ := finishPackage_cont h
        exact ⟨addr, _, h1, h2⟩
      · simp at h
  · simp at h

theorem chunkRetry_halt_frame {cfg : DeployConfig} {sender : Addr}
    {dir : String} {name : Name} {subs : List (Name × Addr)} {l a : Nat}
    {st : CoreSt} {e : FailExit} {st' : CoreSt}
    (h : chunkRetry cfg sender dir name subs l a st = .halt e st') :
    st'.records = st.records ∧ st'.deployed = st.deployed := by
  unfold chunkRetry at h
  split at h
  · exact chunkRetryGo_halt_frame h
  · split at h
    · exact chunkRetryGo_halt_frame h
    · have hf := chunkRetryGo_halt_frame h
      exact ⟨hf.1, hf.2⟩

theorem chunkRetry_cont {cfg : DeployConfig} {sender : Addr}
    {dir : String} {name : Name} {subs : List (Name × Addr)} {l a : Nat}
    {st : CoreSt} {st' : CoreSt}
    (h : chunkRetry cfg sender dir name subs l a st = .cont st') :
    ∃ addr tx, st'.deployed = (name, addr) :: st.deployed ∧
      st'.records = st.records ++ [⟨dir, name, addr, tx⟩] := by
  unfold chunkRetry at h
  split at h
  · exact chunkRetryGo_cont h
  · split at h
    · exact chunkRetryGo_cont h
    · obtain ⟨addr, tx, h1, h2⟩ := chunkRetryGo_cont h
      exact ⟨addr, tx, h1, h2⟩

theorem stepPackage_halt_frame {cfg : DeployConfig} {sender : Addr}
    {man : List (String × List Name)} {dir : String} {name : Name}
    {st : CoreSt} {e : FailExit} {st' : CoreSt}
    (h : stepPackage cfg sender man dir name st = .halt e st') :
    st'.records = st.records ∧ st'.deployed = st.deployed := by
  unfold stepPackage at h
  split at h
  · simp at h
  · split at h
    · simp only [StepRes.halt.injEq] at h
      obtain ⟨-, rfl⟩ := h
      exact ⟨rfl, rfl⟩
    · split at h
      · simp only [StepRes.halt.injEq] at h
        obtain ⟨-, rfl⟩ := h
        exact ⟨rfl, rfl⟩
      · split at h
        · simp only [StepRes.halt.injEq] at h
          obtain ⟨-, rfl⟩ := h
          exact ⟨rfl, rfl⟩
        · split at h
          · have hf := finishPackage_halt_frame h
            exact ⟨hf.1, hf.2⟩
          · split at h
            · have hf := chunkRetry_halt_frame h
              exact ⟨hf.1, hf.2⟩
            · have hf := chunkRetry_halt_frame h
              exact ⟨hf.1, hf.2⟩
            · simp only [StepRes.halt.injEq] at h
              obtain ⟨-, rfl⟩ := h
              exact ⟨rfl, rfl⟩
            · simp only [StepRes.halt.injEq] at h
              obtain ⟨-, rfl⟩ := h
              exact ⟨rfl, rfl⟩
          · simp only [StepRes.halt.injEq] at h
            obtain ⟨-, rfl⟩ := h
            exact ⟨rfl, rfl⟩

theorem stepPackage_cont_of_not_skip {cfg : DeployConfig} {sender : Addr}
    {man : List (String × List Name)} {dir : String} {name : Name}
    {st : CoreSt} {st' : CoreSt}
    (h0 : (st.deployed.lookup name).isSome = false)
    (h : stepPackage cfg sender man dir name st = .cont st') :
    ∃ addr tx, st'.deployed = (name, addr) :: st.deployed ∧
      st'.records = st.records ++ [⟨dir, name, addr, tx⟩] := by
  unfold stepPackage at h
  split at h
  · rename_i hT
    rw [h0] at hT
    simp at hT
  · split at h
    · simp at h
    · split at h
      · simp at h
      · split at h
        · simp at h
        · split at h
          · obtain ⟨addr, h1, h2⟩ := finishPackage_cont h
            exact ⟨addr, _, h1, h2⟩
          · split at h
            · obtain ⟨addr, tx, h1, h2⟩ := chunkRetry_cont h
              exact ⟨addr, tx, h1, h2⟩
            · obtain ⟨addr, tx, h1, h2⟩ := chunkRetry_cont h
              exact ⟨addr, tx, h1, h2⟩
            · simp at h
            · simp at h
          · simp at h

/-- Each package is either skipped (its name already bound, state unchanged
apart from the skip message), deployed (one new book binding and one new
record for exactly this package, appended at the end), or the run halts with
the records and the book exactly as they were. -/
theorem stepPackage_cases (cfg : DeployConfig) (sender : Addr)
    (man : List (String × List Name)) (dir : String) (name : Name)
    (st : CoreSt) :
    ((st.deployed.lookup name).isSome = true ∧
      stepPackage cfg sender man dir name st
        = .cont { st with trace := st.trace ++ [.skip dir name] })
    ∨ ((st.deployed.lookup name).isSome = false ∧
       ∃ st', stepPackage cfg sender man dir name st = .cont st' ∧
         ∃ addr tx, st'.deployed = (name, addr) :: st.deployed ∧
           st'.records = st.records ++ [⟨dir, name, addr, tx⟩])
    ∨ (∃ e st', stepPackage cfg sender man dir name st = .halt e st' ∧
         st'.records = st.records ∧ st'.deployed = st.deployed) := by
  by_cases hsk : (st.deployed.lookup name).isSome = true
  · exact Or.inl ⟨hsk, stepPackage_skip hsk⟩
  · have hsk' : (st.deployed.lookup name).isSome = false :=
      Bool.eq_false_iff.mpr hsk
    cases hstep : stepPackage cfg sender man dir name st with
    | cont st' =>
      exact Or.inr (Or.inl ⟨hsk', st', rfl,
        stepPackage_cont_of_not_skip hsk' hstep⟩)
    | halt e st' =>
      have hf := stepPackage_halt_frame hstep
      exact Or.inr (Or.inr ⟨e, st', rfl, hf⟩)

/-- On a successful run the records are exactly the non-skipped packages,
one record each, in input order. -/
theorem run_core_loop_ok_records (cfg : DeployConfig) (sender : Addr)
    (man : List (String × List Name)) :
    ∀ (pkgs : List (String × Name)) (st : CoreSt),
      (run_core_loop cfg sender man pkgs st).1 = none →
      ((run_core_loop cfg sender man pkgs st).2).records.map recKey
        = st.records.map recKey
          ++ nonSkipped (st.deployed.map Prod.fst) pkgs := by
  intro pkgs
  induction pkgs with
  | nil => intro st _; simp [run_core_loop, nonSkipped]
  | cons p rest ih =>
    obtain ⟨d, n⟩ := p
    intro st hok
    rcases stepPackage_cases cfg sender man d n st with
      ⟨hin, hstep⟩ | ⟨hnin, st', hstep, addr, tx, hdep, hrec⟩ | ⟨e, st', hstep, -, -⟩
    · have hmem : n ∈ st.deployed.map Prod.fst :=
        (lookup_isSome_iff_mem _ _).mp hin
      simp only [run_core_loop, hstep] at hok ⊢
      simpa [nonSkipped, hmem] using ih _ hok
    · have hmem : n ∉ st.deployed.map Prod.fst := by
        intro hm
        rw [(lookup_isSome_iff_mem _ _).mpr hm] at hnin
        exact Bool.noConfusion hnin
      simp only [run_core_loop, hstep] at hok ⊢
      rw [ih _ hok, hrec, hdep]
      simp [nonSkipped, hmem, recKey, List.append_assoc]
    · simp only [run_core_loop, hstep] at hok
      exact Option.noConfusion hok

/-- On an aborting run there is a completed prefix (the packages strictly
before the failing one): the prefix alone runs to success, and the records
are exactly its non-skipped packages in input order — nothing from the
failing package or any later one. -/
theorem run_core_loop_abort_records (cfg : DeployConfig) (sender : Addr)
    (man : List (String × List Name)) :
    ∀ (pkgs : List (String × Name)) (st : CoreSt) (e : FailExit),
      (run_core_loop cfg sender man pkgs st).1 = some e →
      ∃ i, i < pkgs.length ∧
        (run_core_loop cfg sender man (pkgs.take i) st).1 = none ∧
        ((run_core_loop cfg sender man pkgs st).2).records.map recKey
          = st.records.map recKey
            ++ nonSkipped (st.deployed.map Prod.fst) (pkgs.take i) := by
  intro pkgs
  induction pkgs with
  | nil =>
    intro st e h
    rw [run_core_loop] at h
    exact Option.noConfusion h
  | cons p rest ih =>
    obtain ⟨d, n⟩ := p
    intro st e habort
    rcases stepPackage_cases cfg sender man d n st with
      ⟨hin, hstep⟩ | ⟨hnin, st', hstep, addr, tx, hdep, hrec⟩ | ⟨e', st', hstep, hr, hd⟩
    · have hmem : n ∈ st.deployed.map Prod.fst :=
        (lookup_isSome_iff_mem _ _).mp hin
      simp only [run_core_loop, hstep] at habort ⊢
      obtain ⟨i, hi, hpre, hrecs⟩ := ih _ _ habort
      refine ⟨i + 1, Nat.succ_lt_succ hi, ?_, ?_⟩
      · simp only [List.take_succ_cons, run_core_loop, hstep]
        exact hpre
      · simp only [List.take_succ_cons]
        simpa [nonSkipped, hmem] using hrecs
    · have hmem : n ∉ st.deployed.map Prod.fst := by
        intro hm
        rw [(lookup_isSome_iff_mem _ _).mpr hm] at hnin
        exact Bool.noConfusion hnin
      simp only [run_core_loop, hstep] at habort ⊢
      obtain ⟨i, hi, hpre, hrecs⟩ := ih _ _ habort
      refine ⟨i + 1, Nat.succ_lt_succ hi, ?_, ?_⟩
      · simp only [List.take_succ_cons, run_core_loop, hstep]
        exact hpre
      · simp only [List.take_succ_cons]
        rw [hrecs, hrec, hdep]
        simp [nonSkipped, hmem, recKey, List.append_assoc]
    · refine ⟨0, Nat.succ_pos _, by simp [run_core_loop], ?_⟩
      simp only [run_core_loop, hstep]
      simp [nonSkipped, hr]

/-- When every package's address name is already bound in the book, the
whole loop only prints skip messages: no manifest reads, no publishes, no
records, no book changes. -/
theorem run_core_loop_all_skip (cfg : DeployConfig) (sender : Addr)
    (man : List (String × List Name)) :
    ∀ (pkgs : List (String × Name)) (st : CoreSt),
      (∀ p ∈ pkgs, (st.deployed.lookup p.2).isSome = true) →
      run_core_loop cfg sender man pkgs st
        = (none,
           { st with trace := st.trace ++ pkgs.map fun p => Event.skip p.1 p.2 }) := by
  intro pkgs
  induction pkgs with
  | nil => intro st _; simp [run_core_loop]
  | cons p rest ih =>
    obtain ⟨d, n⟩ := p
    intro st hall
    have hin : (st.deployed.lookup n).isSome = true :=
      hall (d, n) (List.mem_cons_self _ _)
    have hrest : ∀ q ∈ rest,
        ((({ st with trace := st.trace ++ [Event.skip d n] } : CoreSt).deployed.lookup
            q.2).isSome) = true := by
      intro q hq
      exact hall q (List.mem_cons_of_mem _ hq)
    simp only [run_core_loop, stepPackage_skip hin]
    rw [ih _ hrest]
    simp

theorem lookup_reportMap_isSome {records : List TxReport} {p : String × Name}
    (h : p ∈ records.map recKey) :
    ((reportMap records).lookup p.2).isSome = true := by
  rw [lookup_isSome_iff_mem]
  obtain ⟨r, hr, hk⟩ := List.mem_map.mp h
  have h2 : p.2 = r.address_name := by rw [← hk]; rfl
  rw [h2, reportMap, List.map_map]
  exact List.mem_map.mpr ⟨r, hr, rfl⟩

/-- What `remove_profile` does to the store `aptos init` just wrote: the
deployer entry disappears; if nothing else was there the whole store is
deleted; any pre-existing non-deployer profiles survive unchanged, in
order. -/
theorem remove_profile_storeInsert (s : List (String × String)) (v : String) :
    remove_profile (storeInsert s DEPLOYER_PROFILE v)
      = (if (s.filter fun p => p.1 != DEPLOYER_PROFILE).isEmpty then none
         else some (s.filter fun p => p.1 != DEPLOYER_PROFILE)) := by
  unfold storeInsert remove_profile
  cases hrest : s.filter (fun p => p.1 != DEPLOYER_PROFILE) with
  | nil => simp [hrest]
  | cons x xs =>
    have hself : (x :: xs).filter (fun p => p.1 != DEPLOYER_PROFILE) = x :: xs := by
      refine List.filter_eq_self.mpr ?_
      intro a ha
      rw [← hrest] at ha
      exact (List.mem_filter.mp ha).2
    have hcat : (x :: (xs ++ [(DEPLOYER_PROFILE, v)])).filter
        (fun p => p.1 != DEPLOYER_PROFILE) = x :: xs := by
      rw [← List.cons_append, List.filter_append, hself]
      simp
    have hlen : ((((x :: xs) ++ [(DEPLOYER_PROFILE, v)]).length == 1)) = false := by
      simp [List.length_append]
    simp [hrest, hcat, hlen]

/-- Unfolding of `deploy_contracts` once the prelude is fixed: a supplied
key that decodes, both URLs resolvable, `aptos init` succeeding.  The run
then consists of `run_core` followed by the report write (whose failure
short-circuits with `reportWrite`, skipping `remove_profile` and dropping
the deployment result), then the profile removal (whose own failure
short-circuits with `profileRemoveFailed`, dropping the deployment result
and leaving the store untouched), and only then the deployment result. -/
theorem deploy_run_eq (cfg : DeployConfig) (w : World) (k : String) (sender : Addr)
    (hk : cfg.private_key = some k) (hdec : w.keys.lookup k = some sender)
    (hr : (resolvedRest cfg).isSome = true) (hf : (resolvedFaucet cfg).isSome = true)
    (hinit : w.initResult = .ok ()) :
    deploy_contracts cfg w =
      (if w.writeOk then
        ⟨(if w.removeOk then topResult (run_core cfg w sender).1
          else .error .profileRemoveFailed),
         some ⟨sender, cfg.network, (run_core cfg w sender).2.records⟩,
         (if w.removeOk then
            remove_profile (storeInsert w.store0 DEPLOYER_PROFILE "deployer-key")
          else some (storeInsert w.store0 DEPLOYER_PROFILE "deployer-key")),
         (run_core cfg w sender).2.trace ++ [.reportWrite, .profileRemove]⟩
      else
        ⟨.error .reportWrite, none,
         some (storeInsert w.store0 DEPLOYER_PROFILE "deployer-key"),
         (run_core cfg w sender).2.trace⟩) := by
  obtain ⟨u, hu⟩ := Option.isSome_iff_exists.mp hr
  obtain ⟨u', hu'⟩ := Option.isSome_iff_exists.mp hf
  simp only [deploy_contracts, hk, hdec, finishRun, hu, hu', hinit]
  cases w.writeOk <;> simp

theorem publishCount_skips (pkgs : List (String × Name)) :
    publishCount (pkgs.map fun p => Event.skip p.1 p.2) = 0 := by
  induction pkgs with
  | nil => rfl
  | cons p rest ih => simpa [publishCount, List.filter] using ih

/-! ### Claim C1 -/

def cfgC1 : DeployConfig :=
  ⟨some "k", .account, ["p"], ["a"], .devnet, true, "out.json", [], none, none, false⟩

def wC1 : World :=
  ⟨[("k", 5)], false, .error "idle", [("p", ["a"])],
   [.err (.other "publish failed")], [], .ok (), false, true, []⟩

/-- C1, counterexample.  In this run the deployment itself fails (the
publish returns an error, so the `run_core` task exits with that deployment
error), and the report write also fails — yet `deploy_contracts` returns
the report-write error, because `fs::write(..)?` propagates before the
deployment result is consulted.  This contradicts the claim that the
deployment error is what is returned when both occur. -/
theorem c1_counterexample :
    (run_core cfgC1 wC1 5).1 = some (.err (.cli (.other "publish failed")))
    ∧ (deploy_contracts cfgC1 wC1).result = .error .reportWrite := by
  exact ⟨rfl, rfl⟩

/-- C1, amended.  If the report write fails, `deploy_contracts` returns the
report-write error regardless of any earlier deployment error (the
deployment error is masked); likewise, if the write succeeds but the
subsequent `remove_profile()?` fails, the removal error is returned and the
deployment error is masked; the deployment result is returned exactly when
both the report write and the profile removal succeed. -/
theorem c1_amended_write_error_precedence (cfg : DeployConfig) (w : World)
    (k : String) (sender : Addr)
    (hk : cfg.private_key = some k) (hdec : w.keys.lookup k = some sender)
    (hr : (resolvedRest cfg).isSome = true) (hf : (resolvedFaucet cfg).isSome = true)
    (hinit : w.initResult = .ok ()) :
    (w.writeOk = false → (deploy_contracts cfg w).result = .error .reportWrite)
    ∧ (w.writeOk = true → w.removeOk = false →
       (deploy_contracts cfg w).result = .error .profileRemoveFailed)
    ∧ (w.writeOk = true → w.removeOk = true →
       (deploy_contracts cfg w).result = topResult (run_core cfg w sender).1) := by
  rw [deploy_run_eq cfg w k sender hk hdec hr hf hinit]
  refine ⟨?_, ?_, ?_⟩
  · intro hw; rw [hw]; simp
  · intro hw hrem; rw [hw, hrem]; simp
  · intro hw hrem; rw [hw, hrem]; simp

/-- C1 witness. -/
theorem c1_witness :
    (deploy_contracts cfgC1 wC1).result = .error .reportWrite :=
  (c1_amended_write_error_precedence cfgC1 wC1 "k" 5 rfl rfl rfl rfl rfl).1 rfl

/-! ### Claim C2 -/

/-- C2.  For an aborting run (the report write itself succeeding, so a
report exists), the written report holds exactly one record per non-skipped
package of the completed prefix — the packages strictly before the failing
one — in input order, and nothing for the failing package or any later
one.  The prefix is witnessed by the fact that running it alone succeeds. -/
theorem c2_report_prefix (cfg : DeployConfig) (w : World) (k : String)
    (sender : Addr) (e : FailExit)
    (hk : cfg.private_key = some k) (hdec : w.keys.lookup k = some sender)
    (hr : (resolvedRest cfg).isSome = true) (hf : (resolvedFaucet cfg).isSome = true)
    (hinit : w.initResult = .ok ()) (hw : w.writeOk = true)
    (habort : (run_core cfg w sender).1 = some e) :
    ∃ rep, (deploy_contracts cfg w).written = some rep ∧
      ∃ i, i < (pkgList cfg).length ∧
        (run_core_loop cfg sender w.manifests ((pkgList cfg).take i)
          (initCoreSt cfg w)).1 = none ∧
        rep.info.map recKey
          = nonSkipped (cfg.deployed_addresses.map Prod.fst)
              ((pkgList cfg).take i) := by
  rw [deploy_run_eq cfg w k sender hk hdec hr hf hinit, hw, if_pos rfl]
  refine ⟨_, rfl, ?_⟩
  obtain ⟨i, hi, hpre, hrecs⟩ :=
    run_core_loop_abort_records cfg sender w.manifests (pkgList cfg)
      (initCoreSt cfg w) e habort
  exact ⟨i, hi, hpre, by simpa [initCoreSt] using hrecs⟩

def cfgC2 : DeployConfig :=
  ⟨some "k", .account, ["p", "q", "r"], ["a", "b", "c"], .devnet, true, "out.json",
   [("b", 9)], none, none, false⟩

def wC2 : World :=
  ⟨[("k", 5)], false, .error "idle",
   [("p", ["a"]), ("q", ["b"]), ("r", ["c"])],
   [.ok [1] none, .err (.other "boom")], [], .ok (), true, true, []⟩

/-- C2 witness: three packages, the second pre-deployed (skipped), the third
failing; the report holds exactly the first package's record. -/
theorem c2_witness :
    ∃ rep, (deploy_contracts cfgC2 wC2).written = some rep ∧
      ∃ i, i < (pkgList cfgC2).length ∧
        (run_core_loop cfgC2 5 wC2.manifests ((pkgList cfgC2).take i)
          (initCoreSt cfgC2 wC2)).1 = none ∧
        rep.info.map recKey
          = nonSkipped (cfgC2.deployed_addresses.map Prod.fst)
              ((pkgList cfgC2).take i) :=
  c2_report_prefix cfgC2 wC2 "k" 5 (.err (.cli (.other "boom")))
    rfl rfl rfl rfl rfl rfl rfl

/-! ### Claim C3 -/

def cfgC3 : DeployConfig :=
  ⟨some "k", .account, ["p", "q"], ["a", "a"], .devnet, true, "out.json",
   [], none, none, false⟩

def wC3 : World :=
  ⟨[("k", 5)], false, .error "idle", [], [], [], .ok (), true, true, []⟩

/-- C3, counterexample.  A configuration whose address names are not
pairwise distinct is NOT rejected: `main` only checks the two list lengths,
so this duplicate-name configuration passes validation and the run is
started. -/
theorem c3_counterexample :
    (jayce_main cfgC3 wC3).isConfigError = false
    ∧ ¬ cfgC3.addresses_name.Nodup := by
  exact ⟨rfl, by decide⟩

/-- C3, amended.  Only the length part of the configuration invariant is
enforced: every configuration whose package-location list and address-name
list differ in length is rejected by `main` before `deploy_contracts` is
ever entered (hence before any network activity); duplicate address names
are not detected — the second occurrence is later treated as already
deployed and skipped. -/
theorem c3_amended_length_check (cfg : DeployConfig) (w : World)
    (h : cfg.modules_path.length ≠ cfg.addresses_name.length) :
    jayce_main cfg w
      = .configError "Modules path and addresses name must have the same length" := by
  have hb : (cfg.modules_path.length == cfg.addresses_name.length) = false := by
    simpa using h
  simp [jayce_main, hb]

def cfgC3b : DeployConfig :=
  ⟨some "k", .account, ["p", "q"], ["a"], .devnet, true, "out.json",
   [], none, none, false⟩

/-- C3 witness. -/
theorem c3_witness :
    jayce_main cfgC3b wC3
      = .configError "Modules path and addresses name must have the same length" :=
  c3_amended_length_check cfgC3b wC3 (by decide)

/-! ### Claim C4 -/

/-- C4.  When a package's publish fails with `PackageSizeExceeded`:
on Local or Devnet the run halts with a fatal `chunkUnsupported` error, no
chunked resubmission is attempted (no chunked publish event) and no
confirmation is offered (the prompt oracle is untouched); on Mainnet or
Testnet with the non-interactive flag set, the same operation is
resubmitted exactly once with chunked publish enabled (exactly one
additional publish event, marked chunked, same package and substitutions),
its success is recorded, and its failure halts the run with that error;
likewise when the flag is unset and the prompt is confirmed. -/
theorem c4_size_exceeded_policy (cfg : DeployConfig) (sender : Addr)
    (man : List (String × List Name)) (dir : String) (name : Name)
    (st : CoreSt) (keys : List Name) (l a : Nat) (rest : List PublishResult)
    (hns : (st.deployed.lookup name).isSome = false)
    (hman : get_named_addresses (man.lookup dir) name cfg.module_type = .ok keys)
    (hdep : keys.find? (fun k => !(st.deployed.lookup k).isSome && k != name) = none)
    (hpubs : st.pubs = .err (.packageSizeExceeded l a) :: rest) :
    ((cfg.network = .localnet ∨ cfg.network = .devnet) →
       stepPackage cfg sender man dir name st
         = .halt (.err (.chunkUnsupported cfg.network))
             { st with
               trace := st.trace
                 ++ [.manifestRead dir,
                     .publish dir name (resolveSubs keys st.deployed name sender) false],
               pubs := rest })
    ∧ ((cfg.network = .mainnet ∨ cfg.network = .testnet) → cfg.yes = true →
       ∀ tx obj pubs2, rest = .ok tx obj :: pubs2 →
         stepPackage cfg sender man dir name st
           = finishPackage cfg sender dir name tx obj
               { st with
                 trace := st.trace
                   ++ [.manifestRead dir,
                       .publish dir name (resolveSubs keys st.deployed name sender) false,
                       .publish dir name (resolveSubs keys st.deployed name sender) true],
                 pubs := pubs2 })
    ∧ ((cfg.network = .mainnet ∨ cfg.network = .testnet) → cfg.yes = true →
       ∀ e2 pubs2, rest = .err e2 :: pubs2 →
         stepPackage cfg sender man dir name st
           = .halt (.err (.cli e2))
               { st with
                 trace := st.trace
                   ++ [.manifestRead dir,
                       .publish dir name (resolveSubs keys st.deployed name sender) false,
                       .publish dir name (resolveSubs keys st.deployed name sender) true],
                 pubs := pubs2 })
    ∧ ((cfg.network = .mainnet ∨ cfg.network = .testnet) → cfg.yes = false →
       ∀ ans', st.answers = true :: ans' →
       ∀ e2 pubs2, rest = .err e2 :: pubs2 →
         stepPackage cfg sender man dir name st
           = .halt (.err (.cli e2))
               { st with
                 trace := st.trace
                   ++ [.manifestRead dir,
                       .publish dir name (resolveSubs keys st.deployed name sender) false,
                       .publish dir name (resolveSubs keys st.deployed name sender) true],
                 pubs := pubs2,
                 answers := ans' }) := by
  have hdep' : keys.find? (fun k => (st.deployed.lookup k).isNone && k != name)
      = none := by simpa using hdep
  refine ⟨?_, ?_, ?_, ?_⟩
  · rintro (hnet | hnet) <;>
      simp [stepPackage, hns, hman, hdep', hpubs, hnet, List.append_assoc]
  · rintro (hnet | hnet) hyes tx obj pubs2 hrest <;>
      simp [stepPackage, hns, hman, hdep', hpubs, hnet, hrest, hyes,
        chunkRetry, chunkRetryGo, List.append_assoc]
  · rintro (hnet | hnet) hyes e2 pubs2 hrest <;>
      simp [stepPackage, hns, hman, hdep', hpubs, hnet, hrest, hyes,
        chunkRetry, chunkRetryGo, List.append_assoc]
  · rintro (hnet | hnet) hyes ans' hans e2 pubs2 hrest <;>
      simp [stepPackage, hns, hman, hdep', hpubs, hnet, hrest, hyes, hans,
        chunkRetry, chunkRetryGo, List.append_assoc]

def cfgC4 : DeployConfig :=
  ⟨some "k", .account, ["p"], ["a"], .localnet, true, "o.json",
   [], some "r", some "f", false⟩

def stC4 : CoreSt := ⟨[], [], [.err (.packageSizeExceeded 10 20)], [], []⟩

/-- C4 witness: on the local network a size-exceeded publish is fatal with
no chunked retry. -/
theorem c4_witness :
    stepPackage cfgC4 5 [("p", ["a"])] "p" "a" stC4
      = .halt (.err (.chunkUnsupported .localnet))
          { stC4 with
            trace := [.manifestRead "p", .publish "p" "a" [("a", 5)] false],
            pubs := [] } := by
  have h := (c4_size_exceeded_policy cfgC4 5 [("p", ["a"])] "p" "a" stC4
    ["a"] 10 20 [] rfl rfl rfl rfl).1 (Or.inl rfl)
  simpa using h

/-! ### Claim C5 -/

/-- C5, amended.  A package whose manifest declares a name that is neither
in the address book nor its own address name makes the run fail for that
package before any publish call is issued (the state gains only the
manifest-read event; the publish oracle is untouched) — but not with a
typed error: the failure is the `panic!` in the named-address closure,
modelled as `crashed (depMissing ..)`, which the supervised task boundary
converts into the caller-visible `taskFailed` error.  The panicking name is
indeed unresolved and distinct from the package's own name. -/
theorem c5_amended_dep_missing_crash (cfg : DeployConfig) (sender : Addr)
    (man : List (String × List Name)) (dir : String) (name : Name)
    (st : CoreSt) (keys : List Name) (missing : Name)
    (hns : (st.deployed.lookup name).isSome = false)
    (hman : get_named_addresses (man.lookup dir) name cfg.module_type = .ok keys)
    (hfind : keys.find? (fun k => !(st.deployed.lookup k).isSome && k != name)
      = some missing) :
    stepPackage cfg sender man dir name st
      = .halt (.crashed (.depMissing missing name))
          { st with trace := st.trace ++ [.manifestRead dir] }
    ∧ (st.deployed.lookup missing).isSome = false
    ∧ missing ≠ name
    ∧ topResult (some (.crashed (.depMissing missing name)))
        = .error (.taskFailed (.depMissing missing name)) := by
  have hp := List.find?_some hfind
  rw [Bool.and_eq_true] at hp
  obtain ⟨h1, h2⟩ := hp
  have hfind' : keys.find? (fun k => (st.deployed.lookup k).isNone && k != name)
      = some missing := by simpa using hfind
  refine ⟨?_, ?_, ?_, rfl⟩
  · simp [stepPackage, hns, hman, hfind']
  · simpa using h1
  · simpa using h2

def cfgC5 : DeployConfig :=
  ⟨some "k", .account, ["p"], ["a"], .devnet, true, "o.json",
   [], none, none, false⟩

def wC5 : World :=
  ⟨[("k", 5)], false, .error "idle", [("p", ["dep", "a"])],
   [.ok [1] none], [], .ok (), true, true, []⟩

/-- C5, counterexample.  With a manifest declaring the unresolved name
"dep", the run's error is the captured panic of the supervised task
(`taskFailed (depMissing ..)`), not a typed error value of the orchestrator
(`core ..`), and no publish call was issued. -/
theorem c5_counterexample :
    (deploy_contracts cfgC5 wC5).result
      = .error (.taskFailed (.depMissing "dep" "a"))
    ∧ publishCount (deploy_contracts cfgC5 wC5).trace = 0 := by
  exact ⟨rfl, rfl⟩

def stC5 : CoreSt := ⟨[], [], [], [], []⟩

/-- C5 witness. -/
theorem c5_witness :
    stepPackage cfgC5 5 [("p", ["dep", "a"])] "p" "a" stC5
      = .halt (.crashed (.depMissing "dep" "a"))
          { stC5 with trace := [.manifestRead "p"] } := by
  have h := (c5_amended_dep_missing_crash cfgC5 5 [("p", ["dep", "a"])] "p" "a"
    stC5 ["dep", "a"] "dep" rfl rfl rfl).1
  simpa using h

/-! ### Claim C6 -/

/-- C6.  A package whose `address_name` is already present in the address
book at the moment it is processed is skipped: the resulting state differs
only by the skip message — no manifest-read event, no publish event, no
new record, the address book and the remaining oracles unchanged.  In
particular a pre-populated map containing everything the package needs
(its own name included) makes the package skip. -/
theorem c6_skip_no_effects (cfg : DeployConfig) (sender : Addr)
    (man : List (String × List Name)) (dir : String) (name : Name)
    (st : CoreSt)
    (h : (st.deployed.lookup name).isSome = true) :
    stepPackage cfg sender man dir name st
      = .cont { st with trace := st.trace ++ [.skip dir name] } :=
  stepPackage_skip h

def cfgC6 : DeployConfig :=
  ⟨some "k", .account, ["p"], ["a"], .devnet, true, "o.json",
   [("a", 7)], none, none, false⟩

def stC6 : CoreSt := ⟨[("a", 7)], [], [], [], []⟩

/-- C6 witness: with an empty manifest oracle and an empty publish oracle,
the pre-populated package is skipped without touching either. -/
theorem c6_witness :
    stepPackage cfgC6 5 [] "p" "a" stC6
      = .cont { stC6 with trace := [.skip "p" "a"] } := by
  have h := c6_skip_no_effects cfgC6 5 [] "p" "a" stC6 rfl
  simpa using h

/-! ### Claim C7 -/

/-- C7, amended.  For a successful run in which every package was actually
deployed (none skipped — equivalently, the records cover the package list
exactly), feeding the report's name-to-address map to a second run over the
identical package list makes the second run skip every package: it
succeeds, issues zero publish calls, and produces an empty record list.
The restriction is forced: a package skipped by the first run leaves no
record, so its name is absent from the report map and the second run would
deploy it again (see the counterexample). -/
theorem c7_amended_resumption (cfg cfg' : DeployConfig) (sender sender' : Addr)
    (man man' : List (String × List Name)) (pkgs : List (String × Name))
    (book : List (Name × Addr)) (pubs pubs' : List PublishResult)
    (ans ans' : List Bool)
    (_hok : (run_core_loop cfg sender man pkgs ⟨book, [], pubs, ans, []⟩).1 = none)
    (hall : ((run_core_loop cfg sender man pkgs
        ⟨book, [], pubs, ans, []⟩).2.records).map recKey = pkgs) :
    (run_core_loop cfg' sender' man' pkgs
        ⟨reportMap (run_core_loop cfg sender man pkgs
          ⟨book, [], pubs, ans, []⟩).2.records, [], pubs', ans', []⟩).1 = none
    ∧ (run_core_loop cfg' sender' man' pkgs
        ⟨reportMap (run_core_loop cfg sender man pkgs
          ⟨book, [], pubs, ans, []⟩).2.records, [], pubs', ans', []⟩).2.records = []
    ∧ publishCount (run_core_loop cfg' sender' man' pkgs
        ⟨reportMap (run_core_loop cfg sender man pkgs
          ⟨book, [], pubs, ans, []⟩).2.records, [], pubs', ans', []⟩).2.trace = 0 := by
  have hmem : ∀ p ∈ pkgs,
      (((⟨reportMap (run_core_loop cfg sender man pkgs
          ⟨book, [], pubs, ans, []⟩).2.records, [], pubs', ans', []⟩ :
            CoreSt)).deployed.lookup p.2).isSome = true := by
    intro p hp
    apply lookup_reportMap_isSome
    rw [hall]
    exact hp
  rw [run_core_loop_all_skip cfg' sender' man' pkgs _ hmem]
  refine ⟨rfl, rfl, ?_⟩
  simpa using publishCount_skips pkgs

def cfgC7 : DeployConfig :=
  ⟨some "k", .account, ["p"], ["a"], .devnet, true, "o.json",
   [("a", 7)], none, none, false⟩

def wC7 : World :=
  ⟨[("k", 5)], false, .error "idle", [("p", ["a"])], [], [], .ok (), true, true, []⟩

def cfgC7b : DeployConfig :=
  ⟨some "k", .account, ["p"], ["a"], .devnet, true, "o.json",
   [], none, none, false⟩

def wC7b : World :=
  ⟨[("k", 5)], false, .error "idle", [("p", ["a"])],
   [.ok [1] none], [], .ok (), true, true, []⟩

/-- C7, counterexample.  A successful first run whose only package was
skipped (its name pre-populated) writes a report with an empty map;
seeding the second run with that empty map (`cfgC7b.deployed_addresses =
reportMap []`) makes the second run publish the package again — one
publish call, not zero. -/
theorem c7_counterexample :
    (deploy_contracts cfgC7 wC7).result = .ok ()
    ∧ (deploy_contracts cfgC7 wC7).written = some ⟨5, .devnet, []⟩
    ∧ cfgC7b.deployed_addresses = reportMap []
    ∧ publishCount (deploy_contracts cfgC7b wC7b).trace = 1 := by
  exact ⟨rfl, rfl, rfl, rfl⟩

/-- C7 witness: a one-package first run that deploys its package; the
resumed run skips it, with no publish call and no records. -/
theorem c7_witness :
    (run_core_loop cfgC7b 5 [("p", ["a"])] [("p", "a")]
        ⟨reportMap (run_core_loop cfgC7b 5 [("p", ["a"])] [("p", "a")]
          ⟨[], [], [.ok [1] none], [], []⟩).2.records, [], [], [], []⟩).1 = none
    ∧ (run_core_loop cfgC7b 5 [("p", ["a"])] [("p", "a")]
        ⟨reportMap (run_core_loop cfgC7b 5 [("p", ["a"])] [("p", "a")]
          ⟨[], [], [.ok [1] none], [], []⟩).2.records, [], [], [], []⟩).2.records = []
    ∧ publishCount (run_core_loop cfgC7b 5 [("p", ["a"])] [("p", "a")]
        ⟨reportMap (run_core_loop cfgC7b 5 [("p", ["a"])] [("p", "a")]
          ⟨[], [], [.ok [1] none], [], []⟩).2.records, [], [], [], []⟩).2.trace = 0 :=
  c7_amended_resumption cfgC7b cfgC7b 5 5 [("p", ["a"])] [("p", ["a"])]
    [("p", "a")] [] [.ok [1] none] [] [] [] rfl rfl

/-! ### Claim C8 -/

/-- C8, amended.  With no private key and the non-interactive flag unset,
declining the confirmation makes `deploy_contracts` return success
immediately: no faucet call, no publish call, the credential store
untouched — and no report written at all (the early `return Ok(())`
precedes the report write), contrary to the claim's "empty report
written". -/
theorem c8_amended_decline_no_report (cfg : DeployConfig) (w : World)
    (h1 : cfg.private_key = none) (h2 : cfg.yes = false) (h3 : w.genAnswer = false) :
    deploy_contracts cfg w = ⟨.ok (), none, some w.store0, []⟩ := by
  simp [deploy_contracts, h1, h2, h3]

def cfgC8 : DeployConfig :=
  ⟨none, .account, ["p"], ["a"], .devnet, false, "o.json", [], none, none, false⟩

def wC8 : World :=
  ⟨[], false, .ok 5, [("p", ["a"])], [.ok [1] none], [], .ok (), true, true,
   [("u", "x")]⟩

/-- C8, counterexample.  On the declined-confirmation path the run indeed
succeeds with no faucet call and no publish (empty trace) — but no report
file is written at all (`written = none`, no report-write event), refuting
"an empty report written" and "a report is written exactly once per run
regardless of outcome". -/
theorem c8_counterexample :
    (deploy_contracts cfgC8 wC8).result = .ok ()
    ∧ (deploy_contracts cfgC8 wC8).written = none
    ∧ (deploy_contracts cfgC8 wC8).trace = [] := by
  exact ⟨rfl, rfl, rfl⟩

/-- C8 witness. -/
theorem c8_witness :
    deploy_contracts cfgC8 wC8 = ⟨.ok (), none, some [("u", "x")], []⟩ := by
  have h := c8_amended_decline_no_report cfgC8 wC8 rfl rfl rfl
  simpa using h

/-! ### Claim C9 -/

/-- C9, amended.  On every exit path that reaches the report write and on
which both that write and the profile removal itself succeed — whatever the
deployment outcome — the transient deployer profile is released: if it was
the only store entry the whole store is deleted, otherwise exactly the
deployer entry is removed and every pre-existing non-deployer profile
survives unchanged, in order.  The claim as stated fails in two ways: when
the report write fails, the `?` on `fs::write` returns before
`remove_profile` is ever called (see the counterexample), and
`remove_profile` is itself fallible (its config read, directory removal or
store rewrite can error), so release is not guaranteed on every exit
path. -/
theorem c9_amended_release_after_write (cfg : DeployConfig) (w : World)
    (k : String) (sender : Addr)
    (hk : cfg.private_key = some k) (hdec : w.keys.lookup k = some sender)
    (hr : (resolvedRest cfg).isSome = true) (hf : (resolvedFaucet cfg).isSome = true)
    (hinit : w.initResult = .ok ()) (hw : w.writeOk = true)
    (hrem : w.removeOk = true) :
    (deploy_contracts cfg w).store
      = (if (w.store0.filter fun p => p.1 != DEPLOYER_PROFILE).isEmpty then none
         else some (w.store0.filter fun p => p.1 != DEPLOYER_PROFILE)) := by
  rw [deploy_run_eq cfg w k sender hk hdec hr hf hinit, hw, if_pos rfl, hrem,
    if_pos rfl]
  exact remove_profile_storeInsert w.store0 "deployer-key"

def cfgC9 : DeployConfig :=
  ⟨some "k", .account, ["p"], ["a"], .devnet, true, "o.json",
   [], none, none, false⟩

def wC9 : World :=
  ⟨[("k", 5)], false, .error "idle", [("p", ["a"])],
   [.ok [1] none], [], .ok (), false, true, [("u", "x")]⟩

/-- C9, counterexample.  An exit path of the run — report write failing —
on which the transient deployer profile is NOT released: the store still
holds it when `deploy_contracts` returns. -/
theorem c9_counterexample :
    storeHasDeployer (deploy_contracts cfgC9 wC9) = true
    ∧ (deploy_contracts cfgC9 wC9).result = .error .reportWrite := by
  exact ⟨rfl, rfl⟩

def wC9b : World :=
  ⟨[("k", 5)], false, .error "idle", [("p", ["a"])],
   [.ok [1] none], [], .ok (), true, true, [("u", "x")]⟩

/-- C9 witness: with a successful write, the deployer entry is gone and the
pre-existing profile survives. -/
theorem c9_witness :
    (deploy_contracts cfgC9 wC9b).store = some [("u", "x")] := by
  have h := c9_amended_release_after_write cfgC9 wC9b "k" 5 rfl rfl rfl rfl rfl rfl rfl
  exact h.trans rfl

/-! ### Claim C10 -/

/-- C10.  If a package's manifest `addresses` table does not contain the
package's own `address_name`, processing that package fails (the `ensure!`
in `get_named_addresses`) before any publish call, whatever the deployment
mode — the state gains only the manifest-read event.  And in Account mode a
manifest entry equal to the package's own name that is absent from the
address book is bound to the sender address in the substitution list — not
treated as a missing dependency — and the package publishes and is recorded
at the sender address. -/
theorem c10_self_binding (cfg : DeployConfig) (sender : Addr)
    (man : List (String × List Name)) (dir : String) (name : Name)
    (st : CoreSt) (keys0 : List Name)
    (hns : (st.deployed.lookup name).isSome = false)
    (hman : man.lookup dir = some keys0) :
    (keys0.contains name = false →
      stepPackage cfg sender man dir name st
        = .halt (.err (.manifestErr
            ("Address name " ++ name ++ " not found in Move.toml")))
            { st with trace := st.trace ++ [.manifestRead dir] })
    ∧ (cfg.module_type = .account → keys0.contains name = true →
       keys0.find? (fun k => !(st.deployed.lookup k).isSome && k != name) = none →
       ∀ tx obj rest, st.pubs = .ok tx obj :: rest →
         (name, sender) ∈ resolveSubs keys0 st.deployed name sender
         ∧ stepPackage cfg sender man dir name st
             = .cont { st with
                 deployed := (name, sender) :: st.deployed,
                 records := st.records ++ [⟨dir, name, sender, tx⟩],
                 pubs := rest,
                 trace := st.trace
                   ++ [.manifestRead dir,
                       .publish dir name
                         (resolveSubs keys0 st.deployed name sender) false] }) := by
  constructor
  · intro hno
    have hge : get_named_addresses (some keys0) name cfg.module_type
        = .error ("Address name " ++ name ++ " not found in Move.toml") := by
      simp only [get_named_addresses]
      rw [hno]
      simp
    simp [stepPackage, hns, hman, hge]
  · intro hacc hyes hfind tx obj rest hpubs
    have hlk : st.deployed.lookup name = none := by
      cases hcase : st.deployed.lookup name with
      | none => rfl
      | some x => rw [hcase] at hns; simp at hns
    constructor
    · have hmem : name ∈ keys0 := List.mem_of_elem_eq_true hyes
      rw [resolveSubs]
      refine List.mem_map.mpr ⟨name, hmem, ?_⟩
      rw [hlk]
    · have hge : get_named_addresses (some keys0) name DeployModuleType.account
          = .ok keys0 := by
        simp only [get_named_addresses]
        rw [hyes]
        simp
      have hfind' : keys0.find? (fun k => (st.deployed.lookup k).isNone && k != name)
          = none := by simpa using hfind
      simp [stepPackage, hns, hman, hge, hfind', hpubs, finishPackage, hacc,
        List.append_assoc]

def cfgC10 : DeployConfig :=
  ⟨some "k", .account, ["p"], ["a"], .devnet, true, "o", [], none, none, false⟩

def stC10 : CoreSt := ⟨[], [], [.ok [1] none], [], []⟩

/-- C10 witness: the package's own name, absent from the (empty) book, is
bound to the sender; the package deploys under the sender address. -/
theorem c10_witness :
    (("a" : Name), (5 : Addr)) ∈ resolveSubs ["a"] [] "a" 5
    ∧ stepPackage cfgC10 5 [("p", ["a"])] "p" "a" stC10
        = .cont { stC10 with
            deployed := [("a", 5)],
            records := [⟨"p", "a", 5, [1]⟩],
            pubs := [],
            trace := [.manifestRead "p", .publish "p" "a" [("a", 5)] false] } := by
  have h := (c10_self_binding cfgC10 5 [("p", ["a"])] "p" "a" stC10 ["a"]
    rfl rfl).2 rfl rfl rfl [1] none [] rfl
  simpa using h

end Jayce
